import Mathlib

/-!
Shallow embedding of the group-fairness metric computations of the
MLU Responsible-AI notebooks: the `calculate_di` disparate-impact
function, the `reweighing` sample-weight function together with the
training-weight construction, and the inline `dpl` / `ci_norm`
count formulas.  Column values are modelled as integers, row counts as
naturals, and the Python float arithmetic as exact rationals; a Python
exception that is raised (or caught into a printed message and a `None`
return) is modelled as `none`.
-/

/-- The floor of a rational, computed from its reduced fraction. -/
def floorQ (q : ℚ) : ℤ := q.num / q.den

/-- Round a rational to the nearest integer, ties to even. -/
def round_half_even (s : ℚ) : ℤ :=
  if s - (floorQ s : ℚ) < 1/2 then floorQ s
  else if 1/2 < s - (floorQ s : ℚ) then floorQ s + 1
  else if floorQ s % 2 = 0 then floorQ s else floorQ s + 1

/-- Python `round(x, 2)`: decimal rounding to two places, ties to even. -/
def round2 (q : ℚ) : ℚ :=
  (round_half_even (100 * q) : ℚ) / 100

/-- A row of the test dataframe: the join key `ID` and the
`age_groups` column (0 = under 25, 1 = 25 and over). -/
structure TestRow where
  id : ℤ
  age_groups : ℤ
deriving DecidableEq, Repr

/-- A row of the prediction dataframe: the join key `ID` and the
predicted `credit_risk_pred` value. -/
structure PredRow where
  id : ℤ
  pred : ℤ
deriving DecidableEq, Repr

/-- `pred_df.merge(test_data, on="ID")`: inner join on `ID`, keeping the
left (prediction) row order; each joined row carries the prediction
value and the `age_groups` value. -/
def merge_on_id (pred_df : List PredRow) (test_data : List TestRow) :
    List (ℤ × ℤ) :=
  (pred_df.map (fun p =>
    (test_data.filter (fun t => t.id = p.id)).map
      (fun t => (p.pred, t.age_groups)))).flatten

/-- The prediction column of the merged frame restricted to one
`age_groups` value, as in `di_df[di_df["age_groups"] == g][pred_col]`. -/
def preds_in_group (test_data : List TestRow) (pred_df : List PredRow)
    (g : ℤ) : List ℤ :=
  ((merge_on_id pred_df test_data).filter (fun r => r.2 = g)).map Prod.fst

/-- `value_counts()[0]`: the count of the value `0` in the column, a
`KeyError` (modelled as `none`) when `0` does not occur. -/
def value_counts_at0 (xs : List ℤ) : Option ℕ :=
  if 0 ∈ xs then some (xs.count 0) else none

/-- The `calculate_di` function of the notebooks.  The whole body runs
under a bare `try/except` that prints and returns `None`, and the
single-group branches also fall through to `None`, so every failure
path is `none`. -/
def calculate_di (test_data : List TestRow) (pred_df : List PredRow) :
    Option ℚ :=
  let preds_less25 := preds_in_group test_data pred_df 0
  let preds_geq25 := preds_in_group test_data pred_df 1
  match value_counts_at0 preds_less25 with
  | none => none
  | some pos_outcomes_less25 =>
    match value_counts_at0 preds_geq25 with
    | none => none
    | some pos_outcomes_geq25 =>
      if preds_geq25.length = 0 then none
      else if preds_less25.length = 0 then none
      else some (((pos_outcomes_less25 : ℚ) / (preds_less25.length : ℚ)) /
        ((pos_outcomes_geq25 : ℚ) / (preds_geq25.length : ℚ)))

/-- A row of the reweighing dataset: the label column and the sensitive
attribute (group) column. -/
structure DataRow where
  lab : ℤ
  grp : ℤ
deriving DecidableEq, Repr

/-- The mutable dataframe passed to `reweighing`: its rows plus the
`weights` column the function assigns (`none` when absent). -/
structure Frame where
  rows : List DataRow
  weights : Option (List ℚ)
deriving DecidableEq, Repr

/-- Helper for `uniques`: keep the values not seen before, tracking the
already-seen ones. -/
def uniques_aux (seen : List ℤ) : List ℤ → List ℤ
  | [] => []
  | a :: l => if a ∈ seen then uniques_aux seen l
              else a :: uniques_aux (a :: seen) l

/-- `Series.unique()`: the distinct values in order of first
appearance. -/
def uniques (l : List ℤ) : List ℤ := uniques_aux [] l

/-- `len(data[data[sensitive_attr] == val])`. -/
def n_group (rows : List DataRow) (v : ℤ) : ℕ :=
  (rows.filter (fun r => r.grp = v)).length

/-- `len(data[data[label] == outcome])`. -/
def n_label (rows : List DataRow) (o : ℤ) : ℕ :=
  (rows.filter (fun r => r.lab = o)).length

/-- `len(data[(data[sensitive_attr] == val) & (data[label] == outcome)])`. -/
def n_cell (rows : List DataRow) (o v : ℤ) : ℕ :=
  (rows.filter (fun r => decide (r.lab = o) && decide (r.grp = v))).length

/-- One iteration of the inner `reweighing` loop:
`round(nom / denom, 2)` where `nom = n_g/N * n_l/N` and
`denom = n_{g,l}/N`; the division raises `ZeroDivisionError`
(modelled as `none`) when the cell count is zero. -/
def cell_weight (rows : List DataRow) (o v : ℤ) : Option ℚ :=
  let N : ℚ := (rows.length : ℚ)
  if n_cell rows o v = 0 then none
  else some (round2 (((n_group rows v : ℚ) / N * ((n_label rows o : ℚ) / N)) /
    ((n_cell rows o v : ℚ) / N)))

/-- `list(map(f, l))` for a fallible `f`: the first exception aborts the
whole construction. -/
def optMapList (f : α → Option β) : List α → Option (List β)
  | [] => some []
  | a :: l =>
    match f a, optMapList f l with
    | some b, some bs => some (b :: bs)
    | _, _ => none

/-- Python dict lookup on an association list whose keys were inserted
without repetition. -/
def dlookup (k : ℤ) : List (ℤ × β) → Option β
  | [] => none
  | (a, b) :: l => if a = k then some b else dlookup k l

/-- The inner loop of `reweighing` for one outcome: `weight_map`. -/
def build_weight_map (rows : List DataRow) (o : ℤ) :
    Option (List (ℤ × ℚ)) :=
  optMapList (fun v => (cell_weight rows o v).map (fun w => (v, w)))
    (uniques (rows.map DataRow.grp))

/-- The outer loop of `reweighing`: `label_dict`, mapping each label
value to its `weight_map`. -/
def build_label_dict (rows : List DataRow) :
    Option (List (ℤ × List (ℤ × ℚ))) :=
  optMapList (fun o => (build_weight_map rows o).map (fun m => (o, m)))
    (uniques (rows.map DataRow.lab))

/-- `label_dict[y][x]` for a label `y` and a group value `x`. -/
def dict_weight (ld : List (ℤ × List (ℤ × ℚ))) (o v : ℤ) : Option ℚ :=
  match dlookup o ld with
  | none => none
  | some m => dlookup v m

/-- The value `reweighing` returns: the per-row weight list
(`return_list=True`) or `label_dict` (`return_list=False`). -/
inductive ReweighResult where
  | wlist : List ℚ → ReweighResult
  | wmap : List (ℤ × List (ℤ × ℚ)) → ReweighResult
deriving DecidableEq, Repr

/-- The `reweighing` function of the day-2 solution notebook.  It
returns the result (or `none` when an exception was caught and printed)
together with the dataframe as left behind: the
`data["weights"] = list(map(...))` assignment mutates the input. -/
def reweighing (data : Frame) (return_list : Bool) :
    Option ReweighResult × Frame :=
  match build_label_dict data.rows with
  | none => (none, data)
  | some label_dict =>
    match optMapList (fun r => dict_weight label_dict r.lab r.grp)
        data.rows with
    | none => (none, data)
    | some ws =>
      let data' : Frame := { rows := data.rows, weights := some ws }
      if return_list then (some (ReweighResult.wlist ws), data')
      else (some (ReweighResult.wmap label_dict), data')

/-- The training-cell weights:
`list(map(lambda x, y: reweigh_dict[y][x], train_df[group], train_df[label]))`
where `reweigh_dict = reweighing(train_data, label, group, False)`. -/
def train_sample_weights (data : Frame) : Option (List ℚ) :=
  match reweighing data false with
  | (some (ReweighResult.wmap reweigh_dict), _) =>
    optMapList (fun r => dict_weight reweigh_dict r.lab r.grp) data.rows
  | _ => none

/-- `len(df[(df[">50k"] == 1) & (df["RAC1P"] == g)])`: favorable
outcomes (label value 1) within one group. -/
def n_pos_label (df : List DataRow) (g : ℤ) : ℕ :=
  (df.filter (fun r => decide (r.lab = 1) && decide (r.grp = g))).length

/-- The inline `dpl` computation of the day-1 EDA notebook, for two
caller-chosen group values; the division raises `ZeroDivisionError`
(`none`) when a group is empty. -/
def dpl (df : List DataRow) (g0 g1 : ℤ) : Option ℚ :=
  if n_group df g0 = 0 ∨ n_group df g1 = 0 then none
  else some ((n_pos_label df g0 : ℚ) / (n_group df g0 : ℚ) -
    (n_pos_label df g1 : ℚ) / (n_group df g1 : ℚ))

/-- The inline `ci_norm` computation of the day-1 EDA notebook; the
division raises `ZeroDivisionError` (`none`) when both groups are
empty. -/
def ci_norm (df : List DataRow) (g0 g1 : ℤ) : Option ℚ :=
  if n_group df g0 + n_group df g1 = 0 then none
  else some (((n_group df g0 : ℚ) - (n_group df g1 : ℚ)) /
    ((n_group df g0 : ℚ) + (n_group df g1 : ℚ)))

/-- A six-row dataset whose reweighing weights are not representable in
two decimal places: cell counts 1, 1, 1, 3 over labels {0, 1} and
groups {0, 1}. -/
def rows6 : List DataRow :=
  [⟨0, 0⟩, ⟨0, 1⟩, ⟨1, 0⟩, ⟨1, 1⟩, ⟨1, 1⟩, ⟨1, 1⟩]

/-- A dataset in which label 0 and group 1 both occur but never
together. -/
def rows_gap : List DataRow := [⟨0, 0⟩, ⟨1, 1⟩]

/-- A one-row dataframe (all cell weights equal 1). -/
def frame_single : Frame := ⟨[⟨0, 0⟩], none⟩

/-- A four-row two-group dataset with one favorable (label 1) outcome
per group. -/
def df_acs : List DataRow := [⟨1, 6⟩, ⟨0, 6⟩, ⟨1, 8⟩, ⟨0, 8⟩]

/-- Test data whose only row lies in group 1: group 0 is empty. -/
def test_one_group : List TestRow := [⟨1, 1⟩]

/-- Predictions for `test_one_group`. -/
def pred_one_group : List PredRow := [⟨1, 0⟩]

/-- Test data with two rows in group 0 and one row in group 1. -/
def test_mixed : List TestRow := [⟨1, 0⟩, ⟨2, 0⟩, ⟨3, 1⟩]

/-- Predictions for `test_mixed` in which the favorable value 0 never
occurs within group 0. -/
def pred_mixed : List PredRow := [⟨1, 1⟩, ⟨2, 1⟩, ⟨3, 0⟩]

/-- Test data with two rows in each group. -/
def test_parity : List TestRow := [⟨1, 0⟩, ⟨2, 0⟩, ⟨3, 1⟩, ⟨4, 1⟩]

/-- Predictions for `test_parity` giving both groups the favorable
rate 1/2. -/
def pred_parity : List PredRow := [⟨1, 0⟩, ⟨2, 1⟩, ⟨3, 0⟩, ⟨4, 1⟩]

/-- The per-row weight list `reweighing` computes on `rows6`. -/
def ws6 : List ℚ := [67/100, 133/100, 133/100, 89/100, 89/100, 89/100]

/-- The `label_dict` mapping `reweighing` computes on `rows6`. -/
def ld6 : List (ℤ × List (ℤ × ℚ)) :=
  [(0, [(0, 67/100), (1, 133/100)]), (1, [(0, 133/100), (1, 89/100)])]

/-! ## Helper lemmas -/

theorem floorQ_eq_floor (q : ℚ) : floorQ q = ⌊q⌋ := Rat.floor_def.symm

theorem abs_round_half_even_sub_le (s : ℚ) :
    |(round_half_even s : ℚ) - s| ≤ 1/2 := by
  have hfl : ((floorQ s : ℤ) : ℚ) ≤ s := by
    rw [floorQ_eq_floor]; exact Int.floor_le s
  have hfu : s < ((floorQ s : ℤ) : ℚ) + 1 := by
    rw [floorQ_eq_floor]; exact_mod_cast Int.lt_floor_add_one s
  unfold round_half_even
  by_cases h1 : s - (floorQ s : ℚ) < 1/2
  · rw [if_pos h1, abs_le]; constructor <;> linarith
  · rw [if_neg h1]
    by_cases h2 : (1:ℚ)/2 < s - (floorQ s : ℚ)
    · rw [if_pos h2]; push_cast; rw [abs_le]; constructor <;> linarith
    · rw [if_neg h2]
      by_cases h3 : floorQ s % 2 = 0
      · rw [if_pos h3, abs_le]; constructor <;> linarith
      · rw [if_neg h3]; push_cast; rw [abs_le]; constructor <;> linarith

theorem abs_round2_sub_le (q : ℚ) : |round2 q - q| ≤ 1/200 := by
  have h := abs_round_half_even_sub_le (100 * q)
  unfold round2
  have he : (round_half_even (100 * q) : ℚ) / 100 - q =
      ((round_half_even (100 * q) : ℚ) - 100 * q) / 100 := by ring
  rw [he, abs_div, abs_of_pos (show (0:ℚ) < 100 by norm_num)]
  linarith

theorem length_filter_mono {α : Type} (l : List α) (p q : α → Bool)
    (h : ∀ a, p a = true → q a = true) :
    (l.filter p).length ≤ (l.filter q).length := by
  induction l with
  | nil => exact le_refl _
  | cons a l ih =>
    by_cases hp : p a = true
    · rw [List.filter_cons_of_pos hp, List.filter_cons_of_pos (h a hp)]
      simpa using ih
    · rw [List.filter_cons_of_neg (by simpa using hp)]
      cases hq : q a with
      | false => rw [List.filter_cons_of_neg (by simp [hq])]; exact ih
      | true =>
        rw [List.filter_cons_of_pos hq]
        exact le_trans ih (by simp)

theorem n_pos_label_le_n_group (df : List DataRow) (g : ℤ) :
    n_pos_label df g ≤ n_group df g := by
  unfold n_pos_label n_group
  apply length_filter_mono
  intro r hr
  simp only [Bool.and_eq_true, decide_eq_true_eq] at hr
  exact decide_eq_true hr.2

theorem n_cell_le_length (rows : List DataRow) (o v : ℤ) :
    n_cell rows o v ≤ rows.length :=
  List.length_filter_le _ rows

theorem optMapList_length {α β : Type} (f : α → Option β) (l : List α)
    (l' : List β) (h : optMapList f l = some l') : l'.length = l.length := by
  induction l generalizing l' with
  | nil =>
    simp only [optMapList] at h
    cases h; rfl
  | cons a l ih =>
    simp only [optMapList] at h
    cases hfa : f a with
    | none => rw [hfa] at h; exact absurd h (by simp)
    | some b =>
      rw [hfa] at h
      cases hr : optMapList f l with
      | none => rw [hr] at h; exact absurd h (by simp)
      | some bs =>
        rw [hr] at h
        simp only [Option.some.injEq] at h
        subst h
        simp [ih bs hr]

theorem optMapList_get {α β : Type} (f : α → Option β) (l : List α)
    (l' : List β) (h : optMapList f l = some l') :
    ∀ i (hi : i < l'.length) (hj : i < l.length),
      f (l.get ⟨i, hj⟩) = some (l'.get ⟨i, hi⟩) := by
  induction l generalizing l' with
  | nil => intro i hi hj; exact absurd hj (by simp)
  | cons a l ih =>
    simp only [optMapList] at h
    cases hfa : f a with
    | none => rw [hfa] at h; exact absurd h (by simp)
    | some b =>
      rw [hfa] at h
      cases hr : optMapList f l with
      | none => rw [hr] at h; exact absurd h (by simp)
      | some bs =>
        rw [hr] at h
        simp only [Option.some.injEq] at h
        subst h
        intro i hi hj
        cases i with
        | zero => simpa using hfa
        | succ n =>
          exact ih bs hr n (by simpa using hi) (by simpa using hj)

theorem optMapList_none {α β : Type} (f : α → Option β) (l : List α)
    (a : α) (ha : a ∈ l) (hf : f a = none) : optMapList f l = none := by
  induction l with
  | nil => exact absurd ha (by simp)
  | cons b l ih =>
    simp only [optMapList]
    rcases List.mem_cons.mp ha with rfl | hmem
    · rw [hf]
    · rw [ih hmem]
      cases f b <;> rfl

theorem mem_uniques_aux (a : ℤ) (l seen : List ℤ) :
    a ∈ uniques_aux seen l ↔ a ∈ l ∧ a ∉ seen := by
  induction l generalizing seen with
  | nil => simp [uniques_aux]
  | cons b l ih =>
    simp only [uniques_aux]
    by_cases hb : b ∈ seen
    · rw [if_pos hb, ih]
      constructor
      · rintro ⟨h1, h2⟩; exact ⟨List.mem_cons_of_mem b h1, h2⟩
      · rintro ⟨h1, h2⟩
        rcases List.mem_cons.mp h1 with rfl | h1
        · exact absurd hb h2
        · exact ⟨h1, h2⟩
    · rw [if_neg hb]
      constructor
      · intro h
        rcases List.mem_cons.mp h with rfl | h
        · exact ⟨List.mem_cons_self a l, hb⟩
        · rcases (ih (b :: seen)).mp h with ⟨h1, h2⟩
          refine ⟨List.mem_cons_of_mem b h1, fun hc => h2 ?_⟩
          exact List.mem_cons_of_mem b hc
      · rintro ⟨h1, h2⟩
        rcases List.mem_cons.mp h1 with rfl | h1
        · exact List.mem_cons_self a _
        · by_cases hab : a = b
          · subst hab; exact List.mem_cons_self a _
          · refine List.mem_cons_of_mem b ((ih (b :: seen)).mpr ⟨h1, ?_⟩)
            intro hc
            rcases List.mem_cons.mp hc with h | h
            · exact hab h
            · exact h2 h

theorem mem_uniques (a : ℤ) (l : List ℤ) : a ∈ uniques l ↔ a ∈ l := by
  rw [uniques, mem_uniques_aux]
  simp

theorem dlookup_built {β : Type} (g : ℤ → Option β) (ks : List ℤ)
    (ps : List (ℤ × β))
    (h : optMapList (fun a => (g a).map (fun b => (a, b))) ks = some ps)
    (k : ℤ) (hk : k ∈ ks) : dlookup k ps = g k := by
  induction ks generalizing ps with
  | nil => exact absurd hk (by simp)
  | cons a ks ih =>
    simp only [optMapList] at h
    cases hga : g a with
    | none => rw [hga] at h; exact absurd h (by simp)
    | some b =>
      rw [hga] at h
      simp only [Option.map_some'] at h
      cases hr : optMapList (fun a => (g a).map (fun b => (a, b))) ks with
      | none => rw [hr] at h; exact absurd h (by simp)
      | some ps' =>
        rw [hr] at h
        simp only [Option.some.injEq] at h
        subst h
        simp only [dlookup]
        by_cases hak : a = k
        · subst hak; rw [if_pos rfl, hga]
        · rw [if_neg hak]
          rcases List.mem_cons.mp hk with rfl | hk
          · exact absurd rfl hak
          · exact ih ps' hr hk

/-! ## Claim theorems -/

/-- C8: for every dataset in which both groups are non-empty, `dpl`
returns `P(favorable | g0) - P(favorable | g1)`, the value lies in
`[-1, 1]`, and swapping the two groups negates it. -/
theorem dpl_spec (df : List DataRow) (g0 g1 : ℤ)
    (h0 : n_group df g0 ≠ 0) (h1 : n_group df g1 ≠ 0) :
    ∃ d, dpl df g0 g1 = some d ∧
      d = (n_pos_label df g0 : ℚ) / (n_group df g0 : ℚ) -
          (n_pos_label df g1 : ℚ) / (n_group df g1 : ℚ) ∧
      -1 ≤ d ∧ d ≤ 1 ∧ dpl df g1 g0 = some (-d) := by
  have hp0 : (0:ℚ) < (n_group df g0 : ℚ) := by
    exact_mod_cast Nat.pos_of_ne_zero h0
  have hp1 : (0:ℚ) < (n_group df g1 : ℚ) := by
    exact_mod_cast Nat.pos_of_ne_zero h1
  have hle0 : (n_pos_label df g0 : ℚ) ≤ (n_group df g0 : ℚ) :=
    Nat.cast_le.mpr (n_pos_label_le_n_group df g0)
  have hle1 : (n_pos_label df g1 : ℚ) ≤ (n_group df g1 : ℚ) :=
    Nat.cast_le.mpr (n_pos_label_le_n_group df g1)
  have hr0 : (0:ℚ) ≤ (n_pos_label df g0 : ℚ) / (n_group df g0 : ℚ) :=
    div_nonneg (Nat.cast_nonneg _) (Nat.cast_nonneg _)
  have hr1 : (0:ℚ) ≤ (n_pos_label df g1 : ℚ) / (n_group df g1 : ℚ) :=
    div_nonneg (Nat.cast_nonneg _) (Nat.cast_nonneg _)
  have hu0 : (n_pos_label df g0 : ℚ) / (n_group df g0 : ℚ) ≤ 1 :=
    (div_le_one hp0).mpr hle0
  have hu1 : (n_pos_label df g1 : ℚ) / (n_group df g1 : ℚ) ≤ 1 :=
    (div_le_one hp1).mpr hle1
  refine ⟨_, ?_, rfl, ?_, ?_, ?_⟩
  · unfold dpl
    rw [if_neg]
    push_neg
    exact ⟨h0, h1⟩
  · linarith
  · linarith
  · unfold dpl
    rw [if_neg]
    · congr 1
      ring
    · push_neg
      exact ⟨h1, h0⟩

/-- Witness for `dpl_spec` on the concrete four-row ACS-style dataset:
both groups have favorable rate 1/2. -/
theorem dpl_spec_witness :
    dpl df_acs 6 8 = some ((n_pos_label df_acs 6 : ℚ) / (n_group df_acs 6 : ℚ) -
      (n_pos_label df_acs 8 : ℚ) / (n_group df_acs 8 : ℚ)) := by
  obtain ⟨d, hd, hform, -, -, -⟩ := dpl_spec df_acs 6 8 (by decide) (by decide)
  rw [hd, hform]

/-- C9: `ci_norm` fails on an empty pair of groups, and otherwise
returns `(n_g0 - n_g1)/(n_g0 + n_g1)`, a value in `[-1, 1]`, negated
under a swap of the groups and zero exactly when the group sizes are
equal. -/
theorem ci_norm_spec (df : List DataRow) (g0 g1 : ℤ) :
    (n_group df g0 + n_group df g1 = 0 → ci_norm df g0 g1 = none) ∧
    (n_group df g0 + n_group df g1 ≠ 0 →
      ∃ c, ci_norm df g0 g1 = some c ∧
        c = ((n_group df g0 : ℚ) - (n_group df g1 : ℚ)) /
            ((n_group df g0 : ℚ) + (n_group df g1 : ℚ)) ∧
        -1 ≤ c ∧ c ≤ 1 ∧ ci_norm df g1 g0 = some (-c) ∧
        (c = 0 ↔ n_group df g0 = n_group df g1)) := by
  constructor
  · intro h
    unfold ci_norm
    rw [if_pos h]
  · intro h
    have hs : (0:ℚ) < (n_group df g0 : ℚ) + (n_group df g1 : ℚ) := by
      have := Nat.pos_of_ne_zero h
      push_cast at this ⊢
      exact_mod_cast this
    have hb0 : (0:ℚ) ≤ (n_group df g0 : ℚ) := Nat.cast_nonneg _
    have hb1 : (0:ℚ) ≤ (n_group df g1 : ℚ) := Nat.cast_nonneg _
    refine ⟨_, ?_, rfl, ?_, ?_, ?_, ?_⟩
    · unfold ci_norm
      rw [if_neg h]
    · rw [le_div_iff₀ hs]
      linarith
    · rw [div_le_one hs]
      linarith
    · unfold ci_norm
      rw [if_neg (by omega)]
      congr 1
      have hne : ((n_group df g0 : ℚ) + (n_group df g1 : ℚ)) ≠ 0 :=
        ne_of_gt hs
      have hne' : ((n_group df g1 : ℚ) + (n_group df g0 : ℚ)) ≠ 0 := by
        rw [add_comm]; exact hne
      field_simp
      ring_nf
      exact Or.inl trivial
    · rw [div_eq_zero_iff]
      constructor
      · rintro (hz | hz)
        · have : (n_group df g0 : ℚ) = (n_group df g1 : ℚ) := by linarith
          exact_mod_cast this
        · exact absurd hz (by linarith)
      · intro hz
        left
        rw [hz]
        ring

/-- Witness for `ci_norm_spec` on the concrete four-row dataset with
two rows in each group. -/
theorem ci_norm_spec_witness :
    ci_norm df_acs 6 8 = some (((n_group df_acs 6 : ℚ) - (n_group df_acs 8 : ℚ)) /
      ((n_group df_acs 6 : ℚ) + (n_group df_acs 8 : ℚ))) := by
  obtain ⟨c, hc, hform, -, -, -, -⟩ := (ci_norm_spec df_acs 6 8).2 (by decide)
  rw [hc, hform]

/-- C1 counterexample: on an input whose group 0 is empty after the
merge, `calculate_di` returns the sentinel `None` instead of raising a
`SingleGroupError`. -/
theorem calculate_di_single_group_returns_none_cx :
    (preds_in_group test_one_group pred_one_group 0).length = 0 ∧
    calculate_di test_one_group pred_one_group = none :=
  ⟨by decide, by decide⟩

/-- C1 (amended): whenever one of the two groups has zero rows after
the merge, `calculate_di` catches the resulting error, prints a
message and returns the sentinel `None`; no distinct error value
reaches the caller. -/
theorem calculate_di_single_group_none (td : List TestRow)
    (pd : List PredRow)
    (h : (preds_in_group td pd 0).length = 0 ∨
      (preds_in_group td pd 1).length = 0) :
    calculate_di td pd = none := by
  rcases h with h | h
  · have h0 : value_counts_at0 (preds_in_group td pd 0) = none := by
      unfold value_counts_at0
      rw [if_neg]
      intro hmem
      rw [List.length_eq_zero] at h
      rw [h] at hmem
      exact absurd hmem (by simp)
    simp only [calculate_di, h0]
  · have h1 : value_counts_at0 (preds_in_group td pd 1) = none := by
      unfold value_counts_at0
      rw [if_neg]
      intro hmem
      rw [List.length_eq_zero] at h
      rw [h] at hmem
      exact absurd hmem (by simp)
    cases hv : value_counts_at0 (preds_in_group td pd 0) with
    | none => simp only [calculate_di, hv]
    | some k => simp only [calculate_di, hv, h1]

/-- Witness for `calculate_di_single_group_none` at the concrete
one-group input. -/
theorem calculate_di_single_group_none_witness :
    calculate_di test_one_group pred_one_group = none :=
  calculate_di_single_group_none test_one_group pred_one_group
    (Or.inl (by decide))

/-- C3: on an input where both groups are non-empty but the favorable
value 0 never occurs among group 0's predictions, `calculate_di` hits
a `KeyError` in `value_counts()[0]`, prints "Wrong inputs provided."
and returns `None` — not the ratio with a zero favorable rate the
specification prescribes. -/
theorem calculate_di_missing_favorable_returns_none :
    (preds_in_group test_mixed pred_mixed 0).length ≠ 0 ∧
    (preds_in_group test_mixed pred_mixed 1).length ≠ 0 ∧
    (0:ℤ) ∉ preds_in_group test_mixed pred_mixed 0 ∧
    calculate_di test_mixed pred_mixed = none :=
  ⟨by decide, by decide, by decide, by decide⟩

/-- C10: `calculate_di` is total with `none` as its only failure
signal, and it returns `none` exactly when the favorable value 0 is
missing from one of the two merged prediction groups — which covers
an empty group (its prediction column is empty) and a group whose
predictions never contain the favorable value. -/
theorem calculate_di_none_iff (td : List TestRow) (pd : List PredRow) :
    calculate_di td pd = none ↔
      ¬ ((0:ℤ) ∈ preds_in_group td pd 0 ∧
         (0:ℤ) ∈ preds_in_group td pd 1) := by
  by_cases h0 : (0:ℤ) ∈ preds_in_group td pd 0
  · by_cases h1 : (0:ℤ) ∈ preds_in_group td pd 1
    · have l0 : (preds_in_group td pd 0).length ≠ 0 := by
        intro hz
        rw [List.length_eq_zero] at hz
        rw [hz] at h0
        exact absurd h0 (by simp)
      have l1 : (preds_in_group td pd 1).length ≠ 0 := by
        intro hz
        rw [List.length_eq_zero] at hz
        rw [hz] at h1
        exact absurd h1 (by simp)
      simp only [calculate_di, value_counts_at0, if_pos h0, if_pos h1,
        if_neg l1, if_neg l0]
      simp [h0, h1]
    · simp only [calculate_di, value_counts_at0, if_pos h0,
        if_neg h1]
      simp [h1]
  · simp only [calculate_di, value_counts_at0, if_neg h0]
    simp [h0]

/-- C5 counterexample: an input with both groups non-empty on which
`calculate_di` does not return the specified ratio of favorable rates
(it returns `None`, because the favorable value 0 is absent from
group 0's predictions). -/
theorem calculate_di_formula_cx :
    (preds_in_group test_mixed pred_mixed 0).length ≠ 0 ∧
    (preds_in_group test_mixed pred_mixed 1).length ≠ 0 ∧
    calculate_di test_mixed pred_mixed ≠
      some ((((preds_in_group test_mixed pred_mixed 0).count 0 : ℚ) /
        ((preds_in_group test_mixed pred_mixed 0).length : ℚ)) /
        (((preds_in_group test_mixed pred_mixed 1).count 0 : ℚ) /
        ((preds_in_group test_mixed pred_mixed 1).length : ℚ))) :=
  ⟨by decide, by decide, by decide⟩

/-- C5 (amended): when the favorable value 0 occurs among each group's
merged predictions (which forces both groups non-empty),
`calculate_di` returns exactly the ratio of the two favorable rates,
and equal rates give exactly 1. -/
theorem calculate_di_formula (td : List TestRow) (pd : List PredRow)
    (h0 : (0:ℤ) ∈ preds_in_group td pd 0)
    (h1 : (0:ℤ) ∈ preds_in_group td pd 1) :
    calculate_di td pd =
      some ((((preds_in_group td pd 0).count 0 : ℚ) /
        ((preds_in_group td pd 0).length : ℚ)) /
        (((preds_in_group td pd 1).count 0 : ℚ) /
        ((preds_in_group td pd 1).length : ℚ))) ∧
    (((preds_in_group td pd 0).count 0 : ℚ) /
        ((preds_in_group td pd 0).length : ℚ) =
      ((preds_in_group td pd 1).count 0 : ℚ) /
        ((preds_in_group td pd 1).length : ℚ) →
      calculate_di td pd = some 1) := by
  have l0 : (preds_in_group td pd 0).length ≠ 0 := by
    intro hz
    rw [List.length_eq_zero] at hz
    rw [hz] at h0
    exact absurd h0 (by simp)
  have l1 : (preds_in_group td pd 1).length ≠ 0 := by
    intro hz
    rw [List.length_eq_zero] at hz
    rw [hz] at h1
    exact absurd h1 (by simp)
  have heq : calculate_di td pd =
      some ((((preds_in_group td pd 0).count 0 : ℚ) /
        ((preds_in_group td pd 0).length : ℚ)) /
        (((preds_in_group td pd 1).count 0 : ℚ) /
        ((preds_in_group td pd 1).length : ℚ))) := by
    simp only [calculate_di, value_counts_at0, if_pos h0, if_pos h1,
      if_neg l1, if_neg l0]
  refine ⟨heq, fun hrate => ?_⟩
  rw [heq, hrate]
  have hpos : (0:ℚ) < ((preds_in_group td pd 1).count 0 : ℚ) /
      ((preds_in_group td pd 1).length : ℚ) := by
    apply div_pos
    · exact_mod_cast List.count_pos_iff.mpr h1
    · exact_mod_cast Nat.pos_of_ne_zero l1
  rw [div_self (ne_of_gt hpos)]

/-- Witness for `calculate_di_formula`: on the parity dataset both
groups have favorable rate 1/2 and the returned DI is exactly 1. -/
theorem calculate_di_formula_witness :
    calculate_di test_parity pred_parity = some 1 :=
  (calculate_di_formula test_parity pred_parity (by decide)
    (by decide)).2
    (by norm_num [preds_in_group, merge_on_id, test_parity, pred_parity])

/-- C2 counterexample: on `rows6` the weight stored for cell
(label 0, group 0) is the rounded value 0.67, which does not satisfy
`weight * n_cell = n_group * n_label / N` (the exact target is 2/3),
and the rounded values are exactly the ones used as training sample
weights. -/
theorem reweighing_weight_rounded_cx :
    cell_weight rows6 0 0 = some (67/100) ∧
    (67:ℚ)/100 * (n_cell rows6 0 0 : ℚ) ≠
      (n_group rows6 0 : ℚ) * (n_label rows6 0 : ℚ) / (rows6.length : ℚ) ∧
    train_sample_weights ⟨rows6, none⟩ = some ws6 := by
  refine ⟨?_, ?_, ?_⟩
  · norm_num [cell_weight, n_cell, n_group, n_label, rows6, round2,
      round_half_even, floorQ]
  · norm_num [n_cell, n_group, n_label, rows6]
  · norm_num [train_sample_weights, reweighing, build_label_dict,
      build_weight_map, optMapList, uniques, uniques_aux, dict_weight,
      dlookup, cell_weight, n_cell, n_group, n_label, rows6, ws6,
      round2, round_half_even, floorQ]

/-- C2 (amended): every weight `reweighing` computes is the exact
independence target `n_g * n_l / (N * n_{g,l})` rounded to two decimal
places, so `weight * n_{g,l}` is within `n_{g,l}/200` of
`n_g * n_l / N` rather than exactly equal to it. -/
theorem cell_weight_rounded_independence_target (rows : List DataRow)
    (o v : ℤ) (w : ℚ) (h : cell_weight rows o v = some w) :
    w = round2 (((n_group rows v : ℚ) * (n_label rows o : ℚ)) /
      ((rows.length : ℚ) * (n_cell rows o v : ℚ))) ∧
    |w * (n_cell rows o v : ℚ) -
      (n_group rows v : ℚ) * (n_label rows o : ℚ) / (rows.length : ℚ)| ≤
      (n_cell rows o v : ℚ) / 200 := by
  have hc : n_cell rows o v ≠ 0 := by
    intro hz
    rw [cell_weight] at h
    simp only [if_pos hz] at h
    exact Option.noConfusion h
  have hcQ : (n_cell rows o v : ℚ) ≠ 0 := Nat.cast_ne_zero.mpr hc
  have hN : rows.length ≠ 0 := by
    intro hz
    apply hc
    have := n_cell_le_length rows o v
    omega
  have hNQ : ((rows.length : ℕ) : ℚ) ≠ 0 := Nat.cast_ne_zero.mpr hN
  have harg : ((n_group rows v : ℚ) / (rows.length : ℚ) *
      ((n_label rows o : ℚ) / (rows.length : ℚ))) /
      ((n_cell rows o v : ℚ) / (rows.length : ℚ)) =
      ((n_group rows v : ℚ) * (n_label rows o : ℚ)) /
      ((rows.length : ℚ) * (n_cell rows o v : ℚ)) := by
    field_simp
    ring
  have hw : w = round2 (((n_group rows v : ℚ) * (n_label rows o : ℚ)) /
      ((rows.length : ℚ) * (n_cell rows o v : ℚ))) := by
    simp only [cell_weight, if_neg hc, harg, Option.some.injEq] at h
    exact h.symm
  refine ⟨hw, ?_⟩
  have hb : |w - ((n_group rows v : ℚ) * (n_label rows o : ℚ)) /
      ((rows.length : ℚ) * (n_cell rows o v : ℚ))| ≤ 1/200 := by
    rw [hw]
    exact abs_round2_sub_le _
  have htc : (((n_group rows v : ℚ) * (n_label rows o : ℚ)) /
      ((rows.length : ℚ) * (n_cell rows o v : ℚ))) *
      (n_cell rows o v : ℚ) =
      (n_group rows v : ℚ) * (n_label rows o : ℚ) / (rows.length : ℚ) := by
    field_simp
    ring
  calc |w * (n_cell rows o v : ℚ) -
      (n_group rows v : ℚ) * (n_label rows o : ℚ) / (rows.length : ℚ)|
      = |w - ((n_group rows v : ℚ) * (n_label rows o : ℚ)) /
          ((rows.length : ℚ) * (n_cell rows o v : ℚ))| *
        |(n_cell rows o v : ℚ)| := by
        rw [← abs_mul, sub_mul, htc]
    _ = |w - ((n_group rows v : ℚ) * (n_label rows o : ℚ)) /
          ((rows.length : ℚ) * (n_cell rows o v : ℚ))| *
        (n_cell rows o v : ℚ) := by
        rw [abs_of_nonneg (show (0:ℚ) ≤ (n_cell rows o v : ℚ) from
          Nat.cast_nonneg _)]
    _ ≤ 1/200 * (n_cell rows o v : ℚ) := by
        exact mul_le_mul_of_nonneg_right hb (Nat.cast_nonneg _)
    _ = (n_cell rows o v : ℚ) / 200 := by ring

/-- Witness for `cell_weight_rounded_independence_target` at the cell
(label 0, group 0) of `rows6`. -/
theorem cell_weight_rounded_independence_target_witness :
    (67:ℚ)/100 = round2 (((n_group rows6 0 : ℚ) * (n_label rows6 0 : ℚ)) /
      ((rows6.length : ℚ) * (n_cell rows6 0 0 : ℚ))) ∧
    |(67:ℚ)/100 * (n_cell rows6 0 0 : ℚ) -
      (n_group rows6 0 : ℚ) * (n_label rows6 0 : ℚ) / (rows6.length : ℚ)| ≤
      (n_cell rows6 0 0 : ℚ) / 200 :=
  cell_weight_rounded_independence_target rows6 0 0 (67/100)
    (by norm_num [cell_weight, n_cell, n_group, n_label, rows6, round2,
      round_half_even, floorQ])

/-- C4 counterexample: on `rows_gap` the label value 0 and the group
value 1 both occur but never together; `reweighing` hits the
`ZeroDivisionError`, catches it, prints and returns `None` with the
input unchanged — no `UndefinedWeightError` reaches the caller. -/
theorem reweighing_zero_cell_none_cx :
    n_label rows_gap 0 ≠ 0 ∧ n_group rows_gap 1 ≠ 0 ∧
    n_cell rows_gap 0 1 = 0 ∧
    reweighing ⟨rows_gap, none⟩ true = (none, ⟨rows_gap, none⟩) :=
  ⟨by decide, by decide, by decide, by decide⟩

/-- C4 (amended): when some combination of an observed label value and
an observed group value has zero co-occurrence count, `reweighing`
catches the division-by-zero, prints, and returns the `None` result
with the input dataframe unchanged; no error object and no NaN or
infinite weight is returned. -/
theorem reweighing_zero_cell_none (data : Frame) (rl : Bool) (o v : ℤ)
    (ho : o ∈ data.rows.map DataRow.lab)
    (hv : v ∈ data.rows.map DataRow.grp)
    (hc : n_cell data.rows o v = 0) :
    reweighing data rl = (none, data) := by
  have hcw : cell_weight data.rows o v = none := by
    rw [cell_weight]
    simp only [if_pos hc]
  have hwm : build_weight_map data.rows o = none := by
    unfold build_weight_map
    apply optMapList_none _ _ v ((mem_uniques v _).mpr hv)
    rw [hcw]
    rfl
  have hld : build_label_dict data.rows = none := by
    unfold build_label_dict
    apply optMapList_none _ _ o ((mem_uniques o _).mpr ho)
    rw [hwm]
    rfl
  unfold reweighing
  rw [hld]

/-- Witness for `reweighing_zero_cell_none` on the two-row dataset
with a missing (label 0, group 1) cell. -/
theorem reweighing_zero_cell_none_witness :
    reweighing ⟨rows_gap, none⟩ false = (none, ⟨rows_gap, none⟩) :=
  reweighing_zero_cell_none ⟨rows_gap, none⟩ false 0 1 (by decide)
    (by decide) (by decide)

/-- C6 counterexample: `reweighing` mutates its input dataframe — the
frame after the call differs from the frame passed in, because the
`weights` column has been assigned. -/
theorem reweighing_mutates_input_cx :
    (reweighing frame_single true).2 ≠ frame_single ∧
    (reweighing frame_single true).2.weights ≠ none :=
  ⟨by decide, by decide⟩

/-- C6 (amended): `calculate_di`, `dpl` and `ci_norm` are pure
functions of their inputs, and `reweighing` never changes the rows of
its input dataframe — the only mutation is the assignment of the
`weights` column exhibited by the counterexample. -/
theorem reweighing_preserves_rows (data : Frame) (rl : Bool) :
    ((reweighing data rl).2).rows = data.rows := by
  cases hb : build_label_dict data.rows with
  | none => simp [reweighing, hb]
  | some ld =>
    cases hm : optMapList (fun r => dict_weight ld r.lab r.grp)
        data.rows with
    | none => simp [reweighing, hb, hm]
    | some ws => cases rl <;> simp [reweighing, hb, hm]

/-- C7: the two output forms of `reweighing` agree exactly: the
per-row list (`return_list=True`) has one weight per input row, and
its i-th element is precisely the value the `label_dict` form
(`return_list=False`) assigns to row i's (label, group) pair. -/
theorem reweighing_list_matches_dict (data : Frame) (ws : List ℚ)
    (ld : List (ℤ × List (ℤ × ℚ))) (f1 f2 : Frame)
    (h1 : reweighing data true = (some (ReweighResult.wlist ws), f1))
    (h2 : reweighing data false = (some (ReweighResult.wmap ld), f2)) :
    ws.length = data.rows.length ∧
    ∀ i (hi : i < ws.length) (hj : i < data.rows.length),
      dict_weight ld (data.rows.get ⟨i, hj⟩).lab
        (data.rows.get ⟨i, hj⟩).grp = some (ws.get ⟨i, hi⟩) := by
  cases hb : build_label_dict data.rows with
  | none =>
    rw [reweighing, hb] at h1
    exact absurd h1 (by simp)
  | some ld0 =>
    cases hm : optMapList (fun r => dict_weight ld0 r.lab r.grp)
        data.rows with
    | none =>
      rw [reweighing, hb] at h1
      simp only [hm] at h1
      exact absurd h1 (by simp)
    | some ws0 =>
      rw [reweighing, hb] at h1 h2
      simp only [hm, if_true, if_false, Prod.mk.injEq,
        Option.some.injEq, ReweighResult.wlist.injEq,
        ReweighResult.wmap.injEq, Bool.false_eq_true, ite_false,
        ite_true] at h1 h2
      obtain ⟨rfl, -⟩ := h1
      obtain ⟨rfl, -⟩ := h2
      constructor
      · exact optMapList_length _ _ _ hm
      · intro i hi hj
        exact optMapList_get _ _ _ hm i hi hj

/-- Witness for `reweighing_list_matches_dict` on `rows6`: the first
row has label 0 and group 0, and the dictionary value for that cell is
the first list entry 0.67. -/
theorem reweighing_list_matches_dict_witness :
    ws6.length = rows6.length ∧
    dict_weight ld6 (rows6.get ⟨0, by decide⟩).lab
      (rows6.get ⟨0, by decide⟩).grp = some (ws6.get ⟨0, by decide⟩) := by
  have h := reweighing_list_matches_dict ⟨rows6, none⟩ ws6 ld6
    ⟨rows6, some ws6⟩ ⟨rows6, some ws6⟩
    (by norm_num [reweighing, build_label_dict, build_weight_map,
      optMapList, uniques, uniques_aux, dict_weight, dlookup,
      cell_weight, n_cell, n_group, n_label, rows6, ws6, ld6,
      round2, round_half_even, floorQ])
    (by norm_num [reweighing, build_label_dict, build_weight_map,
      optMapList, uniques, uniques_aux, dict_weight, dlookup,
      cell_weight, n_cell, n_group, n_label, rows6, ws6, ld6,
      round2, round_half_even, floorQ])
  exact ⟨h.1, h.2 0 (by decide) (by decide)⟩

/-- Witness for `calculate_di_none_iff` at a concrete failing input:
the one-group dataset yields the sentinel `none`. -/
theorem calculate_di_none_iff_witness :
    calculate_di test_one_group pred_one_group = none :=
  (calculate_di_none_iff test_one_group pred_one_group).mpr (by decide)
